import Mathlib

/-!
A shallow embedding of the asynchronous-protocol examples in
`comprehensive.ipynb`: the three sequence-producer variants
(`async_gen_func`, `AsyncIterable`, `AsyncIterator`), the manual drive
loop of `demo_ag`, the `AsyncContextManager` together with the calling
convention of the `async with` statement that the notebook exercises,
and the coroutine-introspection predicates checked by the notebook's
assert cells.

The `asyncio.sleep` calls never influence the produced values, so
suspension points are dropped: every producer is modelled by its
resumption step acting on the cursor attribute `n`, and the drive loop
is modelled with an explicit fuel bound so that termination is an
observable fact rather than an assumption.
-/

/-- The exceptions that occur in the notebook's cells. -/
inductive PyExc where
  | stopAsyncIteration
  | zeroDivisionError
  | cancelledError
deriving DecidableEq

/-- The outcome of one `__anext__` resumption: the value returned or the
exception raised, paired with the cursor state the producer is left in. -/
abbrev StepResult := Except PyExc Int × Int

/-- One resumption of the generator made by `async_gen_func(limit)`:

```
async def async_gen_func(limit):
    await asyncio.sleep(0.1)
    n = 0
    while n < limit:
        n += 1
        yield n
```

With cursor `n`, the loop test `n < limit` either increments and yields
the new cursor, or falls off the end of the generator, which surfaces as
`StopAsyncIteration`; the private cursor is unchanged on exhaustion. -/
def async_gen_func_anext (limit n : Int) : StepResult :=
  if n < limit then (Except.ok (n + 1), n + 1)
  else (Except.error PyExc.stopAsyncIteration, n)

/-- One resumption of the generator returned by
`AsyncIterable.__aiter__`, with the value (if any) pushed in by
`asend`:

```
async def __aiter__(self):
    await asyncio.sleep(0.1)
    while self.n < self.limit:
        self.n += 1
        value = yield self.n
        if value is not None:
            self.n = value
```

Resuming at the `yield` first applies the sent value to `self.n`, then
re-runs the loop test: below the limit it increments and yields, at or
above it the generator returns, surfacing `StopAsyncIteration`. The
cursor lives on the instance, so it persists across resumptions. -/
def AsyncIterable.resume (limit n : Int) (sent : Option Int) : StepResult :=
  let n0 := sent.getD n
  if n0 < limit then (Except.ok (n0 + 1), n0 + 1)
  else (Except.error PyExc.stopAsyncIteration, n0)

/-- A plain `__anext__` on the `AsyncIterable` generator: a resumption
with nothing sent in. -/
def AsyncIterable.anext (limit n : Int) : StepResult :=
  AsyncIterable.resume limit n none

/-- `AsyncIterator.__anext__`:

```
async def __anext__(self):
    await asyncio.sleep(0.1)
    self.n += 1
    if self.n > self.limit:
        raise StopAsyncIteration
    return self.n
```

The instance cursor is incremented before the bound test, so it keeps
growing even on the exhausting call. -/
def AsyncIterator.anext (limit n : Int) : StepResult :=
  let n1 := n + 1
  if limit < n1 then (Except.error PyExc.stopAsyncIteration, n1)
  else (Except.ok n1, n1)

/-- The manual drive loop of `demo_ag`: repeatedly await `__anext__`,
catching exactly `StopAsyncIteration` to end the iteration; any other
exception escapes to the caller. `fuel` bounds the number of
resumptions and `none` means the loop was still running when fuel ran
out, so a `some` result is a terminated drive. The result carries the
values produced in order and the cursor the producer was left with. -/
def drain (step : Int → StepResult) : Nat → Int → Option (Except PyExc (List Int) × Int)
  | 0, _ => none
  | fuel + 1, n =>
    match step n with
    | (Except.error PyExc.stopAsyncIteration, s) => some (Except.ok [], s)
    | (Except.error e, s) => some (Except.error e, s)
    | (Except.ok v, s) =>
      (drain step fuel s).map (fun r => (r.1.map (fun l => v :: l), r.2))

/-- One printed item of `demo_ag`: a produced value, or the `done`
marker printed by the loop's else clause after exhaustion. -/
inductive TraceItem where
  | value (n : Int)
  | done
deriving DecidableEq

/-- What `demo_ag`'s manual loop prints for one producer: each value in
order, then `done` once `StopAsyncIteration` has been caught. -/
def demo_ag_manual (step : Int → StepResult) (fuel : Nat) (n : Int) :
    Option (Except PyExc (List TraceItem)) :=
  (drain step fuel n).map
    (fun r => r.1.map (fun l => l.map TraceItem.value ++ [TraceItem.done]))

/-- The values `n + 1, n + 2, ..., limit` that a producer emits when
drained from cursor `n` (empty when the cursor is at or past the
limit). -/
def upList (n limit : Int) : List Int :=
  if n < limit then (n + 1) :: upList (n + 1) limit else []
termination_by (limit - n).toNat
decreasing_by
  simp_wf
  omega

/-- What the body of an `async with` block does. -/
inductive BodyOutcome where
  | normal
  | raises (e : PyExc)
  | cancelledWhileSuspended

/-- Observable events of one run of an `async with` statement. -/
inductive WithEvent where
  | enterCalled
  | exitCalled (arg : Option PyExc)
  | raisedToCaller (e : PyExc)
  | completedNormally
deriving DecidableEq

/-- Truthiness of a value returned by `__aexit__`: Python's `None` is
falsy, a `bool` is itself. -/
def truthy : Option Bool → Bool
  | none => false
  | some b => b

/-- `AsyncContextManager.__aexit__` from the notebook: its body is
`pass`, so every call returns `None`. Its three positional arguments
`(exc_type, exc_value, tb)` are summarized by the optional exception. -/
def AsyncContextManager.aexit : Option PyExc → Option Bool :=
  fun _ => none

/-- The calling convention of the `async with` statement (the PEP 492
expansion), applied to a manager whose enter step cannot fail — the
notebook's `__aenter__` only evaluates `self.exclusive_resource`.
Enter runs, then the body; whatever the body does — returning normally,
raising, or receiving a cancellation at a suspension point — `aexit` is
called once with the failure information. On a failure, a truthy return
from `aexit` suppresses it and a falsy return re-raises it to the
caller after `aexit` has completed. The run is recorded as its ordered
event list. -/
def asyncWithRun (aexit : Option PyExc → Option Bool) (body : BodyOutcome) :
    List WithEvent :=
  WithEvent.enterCalled ::
    match body with
    | BodyOutcome.normal =>
      [WithEvent.exitCalled none, WithEvent.completedNormally]
    | BodyOutcome.raises e =>
      if truthy (aexit (some e)) then
        [WithEvent.exitCalled (some e), WithEvent.completedNormally]
      else
        [WithEvent.exitCalled (some e), WithEvent.raisedToCaller e]
    | BodyOutcome.cancelledWhileSuspended =>
      if truthy (aexit (some PyExc.cancelledError)) then
        [WithEvent.exitCalled (some PyExc.cancelledError),
          WithEvent.completedNormally]
      else
        [WithEvent.exitCalled (some PyExc.cancelledError),
          WithEvent.raisedToCaller PyExc.cancelledError]

/-- Whether an event is a call of the manager's exit step. -/
def isExitCall : WithEvent → Bool
  | WithEvent.exitCalled _ => true
  | _ => false

/-- The failure the caller of the whole `async with` statement observes,
if any: a run ends either with `completedNormally` or with the failure
re-raised to the caller. -/
def withOutcome (tr : List WithEvent) : Option PyExc :=
  match tr.getLast? with
  | some (WithEvent.raisedToCaller e) => some e
  | _ => none

/-- The introspectable shape of a Python object, holding exactly the
facts that the `inspect` predicates in the notebook's assert cells
read: whether the object is a plain function created by `def`, the
`CO_COROUTINE` flag of its code object, whether it is an instance of
the native coroutine type, whether it is a generator instance, the
`CO_ITERABLE_COROUTINE` flag set by `@asyncio.coroutine`, and whether
its type defines `__await__`. -/
structure PyObjectShape where
  isFunctionDef : Bool
  hasCoroutineFlag : Bool
  isCoroutineObject : Bool
  isGeneratorObject : Bool
  hasIterableCoroutineFlag : Bool
  hasAwaitMethod : Bool
deriving DecidableEq

/-- `inspect.iscoroutinefunction`: a function whose code object carries
the `CO_COROUTINE` flag. -/
def iscoroutinefunction (o : PyObjectShape) : Bool :=
  o.isFunctionDef && o.hasCoroutineFlag

/-- `inspect.iscoroutine`: an instance of the native coroutine type. -/
def iscoroutine (o : PyObjectShape) : Bool :=
  o.isCoroutineObject

/-- `inspect.isawaitable`: a native coroutine object, a generator
marked `CO_ITERABLE_COROUTINE`, or an instance of
`collections.abc.Awaitable` (a type defining `__await__`). -/
def isawaitable (o : PyObjectShape) : Bool :=
  o.isCoroutineObject || (o.isGeneratorObject && o.hasIterableCoroutineFlag)
    || o.hasAwaitMethod

/-- `native_coroutine_function`, made with `async def`: a function
whose code object carries the coroutine flag; not itself awaitable. -/
def native_coroutine_function : PyObjectShape :=
  ⟨true, true, false, false, false, false⟩

/-- `native_coroutine_object = native_coroutine_function()`: an
instance of the native coroutine type, whose type defines
`__await__`. -/
def native_coroutine_object : PyObjectShape :=
  ⟨false, false, true, false, false, true⟩

/-- `future_like_object = FutureLike()`: a plain instance whose class
defines `__await__` and nothing else of interest. -/
def future_like_object : PyObjectShape :=
  ⟨false, false, false, false, false, true⟩

/-- `generator_based_coroutine_function`, a generator function wrapped
by `@asyncio.coroutine`: still a plain function, with the
`CO_ITERABLE_COROUTINE` flag set on its code object but not
`CO_COROUTINE`. -/
def generator_based_coroutine_function : PyObjectShape :=
  ⟨true, false, false, false, true, false⟩

/-- `generator_based_coroutine_object`, its call result: a generator
instance carrying the `CO_ITERABLE_COROUTINE` flag; the generator type
does not define `__await__`. -/
def generator_based_coroutine_object : PyObjectShape :=
  ⟨false, false, false, true, true, false⟩

/-! Helper lemmas about `upList` and `drain`. -/

theorem upList_eq_aux : ∀ (k : Nat) (n limit : Int), (limit - n).toNat = k →
    upList n limit = (List.range k).map (fun i : Nat => n + 1 + (i : Int)) := by
  intro k
  induction k with
  | zero =>
    intro n limit hk
    rw [upList, if_neg (by omega)]
    simp
  | succ k ih =>
    intro n limit hk
    have hn : n < limit := by omega
    rw [upList, if_pos hn, List.range_succ_eq_map, List.map_cons, List.map_map]
    rw [ih (n + 1) limit (by omega)]
    simp only [Nat.cast_zero, add_zero]
    congr 1
    apply List.map_congr_left
    intro i hi
    simp only [Function.comp_apply, Nat.succ_eq_add_one]
    push_cast
    ring

theorem upList_eq (n limit : Int) :
    upList n limit =
      (List.range (limit - n).toNat).map (fun i : Nat => n + 1 + (i : Int)) :=
  upList_eq_aux (limit - n).toNat n limit rfl

theorem upList_length (n limit : Int) :
    (upList n limit).length = (limit - n).toNat := by
  rw [upList_eq]
  simp

theorem upList_nil (n limit : Int) (h : limit ≤ n) : upList n limit = [] := by
  rw [upList, if_neg (by omega)]

theorem upList_cons (n limit : Int) (h : n < limit) :
    upList n limit = (n + 1) :: upList (n + 1) limit := by
  rw [upList, if_pos h]

theorem agf_yield (limit : Int) : ∀ m, m < limit →
    async_gen_func_anext limit m = (Except.ok (m + 1), m + 1) := by
  intro m hm
  simp [async_gen_func_anext, hm]

theorem agf_stop (limit : Int) : ∀ m, limit ≤ m →
    async_gen_func_anext limit m = (Except.error PyExc.stopAsyncIteration, m) := by
  intro m hm
  simp [async_gen_func_anext]
  omega

theorem aiterable_yield (limit : Int) : ∀ m, m < limit →
    AsyncIterable.anext limit m = (Except.ok (m + 1), m + 1) := by
  intro m hm
  simp [AsyncIterable.anext, AsyncIterable.resume, hm]

theorem aiterable_stop (limit : Int) : ∀ m, limit ≤ m →
    AsyncIterable.anext limit m = (Except.error PyExc.stopAsyncIteration, m) := by
  intro m hm
  simp [AsyncIterable.anext, AsyncIterable.resume]
  omega

theorem aiterator_yield (limit : Int) : ∀ m, m < limit →
    AsyncIterator.anext limit m = (Except.ok (m + 1), m + 1) := by
  intro m hm
  simp [AsyncIterator.anext]
  omega

theorem aiterator_stop (limit : Int) : ∀ m, limit ≤ m →
    AsyncIterator.anext limit m =
      (Except.error PyExc.stopAsyncIteration, m + 1) := by
  intro m hm
  simp [AsyncIterator.anext]
  omega

theorem drain_spec (limit : Int) (step : Int → StepResult) (stopSt : Int → Int)
    (hyield : ∀ m, m < limit → step m = (Except.ok (m + 1), m + 1))
    (hstop : ∀ m, limit ≤ m →
      step m = (Except.error PyExc.stopAsyncIteration, stopSt m)) :
    ∀ (fuel : Nat) (n : Int), (limit - n).toNat < fuel →
      drain step fuel n =
        some (Except.ok (upList n limit), stopSt (max n limit)) := by
  intro fuel
  induction fuel with
  | zero =>
    intro n h
    exact absurd h (Nat.not_lt_zero _)
  | succ f ih =>
    intro n h
    by_cases hn : n < limit
    · have hrec := ih (n + 1) (by omega)
      have hmax : max (n + 1) limit = max n limit := by omega
      rw [upList, if_pos hn]
      simp only [drain, hyield n hn, hrec, Option.map_some', Except.map]
      rw [hmax]
    · have hmax : max n limit = n := by omega
      rw [upList, if_neg hn, hmax]
      simp only [drain, hstop n (by omega)]

theorem drain_unique (limit : Int) (step : Int → StepResult) (stopSt : Int → Int)
    (hyield : ∀ m, m < limit → step m = (Except.ok (m + 1), m + 1))
    (hstop : ∀ m, limit ≤ m →
      step m = (Except.error PyExc.stopAsyncIteration, stopSt m)) :
    ∀ (fuel : Nat) (n : Int) (r : Except PyExc (List Int) × Int),
      drain step fuel n = some r →
      r = (Except.ok (upList n limit), stopSt (max n limit)) := by
  intro fuel
  induction fuel with
  | zero =>
    intro n r h
    simp [drain] at h
  | succ f ih =>
    intro n r h
    by_cases hn : n < limit
    · simp only [drain, hyield n hn] at h
      obtain ⟨r0, hr0, hmap⟩ := Option.map_eq_some'.mp h
      have := ih (n + 1) r0 hr0
      subst this
      have hmax : max (n + 1) limit = max n limit := by omega
      rw [← hmap, upList_cons n limit hn, hmax]
      simp [Except.map]
    · simp only [drain, hstop n (by omega), Option.some.injEq] at h
      have hmax : max n limit = n := by omega
      rw [← h, upList_nil n limit (by omega), hmax]

/-! The claims. -/

/-- C1: for every limit `L ≥ 0`, fully draining `async_gen_func` with
`demo_ag`'s manual loop and no injected values yields exactly the
ordered values `1, 2, ..., L` followed by the `done` termination
marker (so `1, 2, 3, done` for `L = 3`). -/
theorem agf_full_drain_trace (L : Int) (hL : 0 ≤ L) (fuel : Nat)
    (hfuel : L.toNat < fuel) :
    demo_ag_manual (async_gen_func_anext L) fuel 0 =
      some (Except.ok
        ((List.range L.toNat).map (fun i : Nat => TraceItem.value (1 + (i : Int)))
          ++ [TraceItem.done])) := by
  have hd := drain_spec L (async_gen_func_anext L) (fun m => m)
    (agf_yield L) (agf_stop L) fuel 0 (by omega)
  rw [demo_ag_manual, hd]
  simp [Except.map, upList_eq, List.map_map, Function.comp, sub_zero]

theorem agf_full_drain_trace_witness :
    demo_ag_manual (async_gen_func_anext 3) 4 0 =
      some (Except.ok
        ((List.range (3 : Int).toNat).map (fun i : Nat => TraceItem.value (1 + (i : Int)))
          ++ [TraceItem.done])) :=
  agf_full_drain_trace 3 (by decide) 4 (by decide)

/-- C2: once enter has completed, the exit step of the scoped-resource
manager runs exactly once per `async with` run — whether the guarded
body completes normally, raises, or is cancelled while suspended — both
for the notebook's `AsyncContextManager` and for any manager. -/
theorem aexit_runs_exactly_once (body : BodyOutcome) :
    (asyncWithRun AsyncContextManager.aexit body).countP isExitCall = 1
    ∧ ∀ aexit : Option PyExc → Option Bool,
        (asyncWithRun aexit body).countP isExitCall = 1 := by
  have hgen : ∀ aexit : Option PyExc → Option Bool,
      (asyncWithRun aexit body).countP isExitCall = 1 := by
    intro aexit
    cases body with
    | normal =>
      simp [asyncWithRun, List.countP_cons, isExitCall]
    | raises e =>
      by_cases h : truthy (aexit (some e)) <;>
        simp [asyncWithRun, h, List.countP_cons, isExitCall]
    | cancelledWhileSuspended =>
      by_cases h : truthy (aexit (some PyExc.cancelledError)) <;>
        simp [asyncWithRun, h, List.countP_cons, isExitCall]
  exact ⟨hgen AsyncContextManager.aexit, hgen⟩

/-- C3: a failure raised in the guarded body is handed to exit; a truthy
exit return swallows it and a falsy return lets it continue to the
caller after exit has run. In particular `AsyncContextManager.__aexit__`
returns `None`, so a division by zero in the block surfaces to the
caller after the exit call. -/
theorem scope_failure_handling (aexit : Option PyExc → Option Bool) (e : PyExc) :
    withOutcome (asyncWithRun aexit (BodyOutcome.raises e)) =
      (if truthy (aexit (some e)) then none else some e)
    ∧ asyncWithRun AsyncContextManager.aexit
        (BodyOutcome.raises PyExc.zeroDivisionError) =
      [WithEvent.enterCalled, WithEvent.exitCalled (some PyExc.zeroDivisionError),
        WithEvent.raisedToCaller PyExc.zeroDivisionError] := by
  constructor
  · by_cases h : truthy (aexit (some e)) <;> simp [asyncWithRun, withOutcome, h]
  · rfl

/-- C4: the classifier truth table holds exactly for one instance of
each of the five subject kinds of the notebook's assert cells. -/
theorem classifier_truth_table :
    (iscoroutinefunction native_coroutine_function = true
      ∧ iscoroutine native_coroutine_function = false
      ∧ isawaitable native_coroutine_function = false)
    ∧ (iscoroutinefunction native_coroutine_object = false
      ∧ iscoroutine native_coroutine_object = true
      ∧ isawaitable native_coroutine_object = true)
    ∧ (iscoroutinefunction future_like_object = false
      ∧ iscoroutine future_like_object = false
      ∧ isawaitable future_like_object = true)
    ∧ (iscoroutinefunction generator_based_coroutine_function = false
      ∧ iscoroutine generator_based_coroutine_function = false
      ∧ isawaitable generator_based_coroutine_function = false)
    ∧ (iscoroutinefunction generator_based_coroutine_object = false
      ∧ iscoroutine generator_based_coroutine_object = false
      ∧ isawaitable generator_based_coroutine_object = true) := by
  decide

/-- C5: for every limit `L`, the three producer variants, drained fully
without value injection, all terminate and yield the identical ordered
sequence `1, 2, ..., L`. -/
theorem producer_variants_equivalent (L : Int) (fuel : Nat)
    (hfuel : L.toNat < fuel) :
    drain (async_gen_func_anext L) fuel 0 =
      some (Except.ok (upList 0 L), max 0 L)
    ∧ drain (AsyncIterable.anext L) fuel 0 =
      some (Except.ok (upList 0 L), max 0 L)
    ∧ drain (AsyncIterator.anext L) fuel 0 =
      some (Except.ok (upList 0 L), max 0 L + 1)
    ∧ upList 0 L = (List.range L.toNat).map (fun i : Nat => 1 + (i : Int)) := by
  refine ⟨?_, ?_, ?_, ?_⟩
  · exact drain_spec L _ (fun m => m) (agf_yield L) (agf_stop L) fuel 0 (by omega)
  · exact drain_spec L _ (fun m => m) (aiterable_yield L) (aiterable_stop L)
      fuel 0 (by omega)
  · exact drain_spec L _ (fun m => m + 1) (aiterator_yield L) (aiterator_stop L)
      fuel 0 (by omega)
  · rw [upList_eq]
    simp

theorem producer_variants_equivalent_witness :
    drain (async_gen_func_anext 4) 5 0 =
      some (Except.ok (upList 0 4), max 0 4)
    ∧ drain (AsyncIterable.anext 4) 5 0 =
      some (Except.ok (upList 0 4), max 0 4)
    ∧ drain (AsyncIterator.anext 4) 5 0 =
      some (Except.ok (upList 0 4), max 0 4 + 1)
    ∧ upList 0 4 = (List.range (4 : Int).toNat).map (fun i : Nat => 1 + (i : Int)) :=
  producer_variants_equivalent 4 5 (by decide)

/-- C6: after the consumer has received item `k` from the two-method
variant, injecting a cursor override `V` (with `V` below the limit)
makes the next produced item `V + 1` — not `k + 1` whenever `k ≠ V` —
and the rest of the iteration continues from the injected cursor. -/
theorem asend_redirects_cursor (limit k V : Int) (hV : V < limit) :
    AsyncIterable.resume limit k (some V) = (Except.ok (V + 1), V + 1)
    ∧ (k ≠ V → AsyncIterable.resume limit k (some V) ≠ (Except.ok (k + 1), k + 1))
    ∧ ∀ fuel : Nat, (limit - (V + 1)).toNat < fuel →
        drain (AsyncIterable.anext limit) fuel (V + 1) =
          some (Except.ok (upList (V + 1) limit), max (V + 1) limit) := by
  have hres : AsyncIterable.resume limit k (some V) = (Except.ok (V + 1), V + 1) := by
    simp [AsyncIterable.resume, hV]
  refine ⟨hres, ?_, ?_⟩
  · intro hk hcon
    rw [hres] at hcon
    injection hcon with h1 h2
    omega
  · intro fuel hfuel
    exact drain_spec limit _ (fun m => m) (aiterable_yield limit)
      (aiterable_stop limit) fuel (V + 1) hfuel

theorem asend_redirects_cursor_witness :
    AsyncIterable.resume 10 2 (some 6) = (Except.ok (6 + 1), 6 + 1)
    ∧ ((2 : Int) ≠ 6 → AsyncIterable.resume 10 2 (some 6) ≠ (Except.ok (2 + 1), 2 + 1))
    ∧ ∀ fuel : Nat, ((10 : Int) - (6 + 1)).toNat < fuel →
        drain (AsyncIterable.anext 10) fuel (6 + 1) =
          some (Except.ok (upList (6 + 1) 10), max (6 + 1) 10) :=
  asend_redirects_cursor 10 2 6 (by decide)

/-- C7: the producer's exhaustion signal `StopAsyncIteration` never
passes the iteration boundary: every terminated drive of a producer is
an `ok` result, not an error, and the caller of `demo_ag`'s loop
observes the values followed by the `done` marker — normal
termination. -/
theorem exhaustion_signal_stays_local (limit : Int) (fuel : Nat) (n : Int)
    (r : Except PyExc (List Int) × Int) (res : Except PyExc (List TraceItem))
    (h1 : drain (AsyncIterator.anext limit) fuel n = some r)
    (h2 : demo_ag_manual (async_gen_func_anext limit) fuel n = some res) :
    (∃ items fin, r = (Except.ok items, fin))
    ∧ ∃ tr, res = Except.ok tr ∧ tr.getLast? = some TraceItem.done := by
  constructor
  · have hu := drain_unique limit _ (fun m => m + 1) (aiterator_yield limit)
      (aiterator_stop limit) fuel n r h1
    exact ⟨upList n limit, max n limit + 1, hu⟩
  · rw [demo_ag_manual] at h2
    obtain ⟨r0, hr0, hmap⟩ := Option.map_eq_some'.mp h2
    have h3 := drain_unique limit _ (fun m => m) (agf_yield limit)
      (agf_stop limit) fuel n r0 hr0
    subst h3
    refine ⟨(upList n limit).map TraceItem.value ++ [TraceItem.done], ?_, ?_⟩
    · rw [← hmap]
      simp [Except.map]
    · simp

theorem exhaustion_signal_stays_local_witness :
    (∃ items fin,
        ((Except.ok [1, 2] : Except PyExc (List Int)), (3 : Int)) =
          (Except.ok items, fin))
    ∧ ∃ tr,
        (Except.ok [TraceItem.value 1, TraceItem.value 2, TraceItem.done] :
            Except PyExc (List TraceItem)) = Except.ok tr
        ∧ tr.getLast? = some TraceItem.done :=
  exhaustion_signal_stays_local 2 3 0 (Except.ok [1, 2], 3)
    (Except.ok [TraceItem.value 1, TraceItem.value 2, TraceItem.done])
    (by rfl) (by rfl)

/-- C8: at every cursor state of each producer, a production step
without injection leaves the cursor no smaller, and the step signals
exhaustion exactly when the cursor has reached the bound. -/
theorem cursor_monotone_stop_at_bound (limit n : Int) :
    (n ≤ (async_gen_func_anext limit n).2
      ∧ ((async_gen_func_anext limit n).1 = Except.error PyExc.stopAsyncIteration
          ↔ limit ≤ n))
    ∧ (n ≤ (AsyncIterable.anext limit n).2
      ∧ ((AsyncIterable.anext limit n).1 = Except.error PyExc.stopAsyncIteration
          ↔ limit ≤ n))
    ∧ (n ≤ (AsyncIterator.anext limit n).2
      ∧ ((AsyncIterator.anext limit n).1 = Except.error PyExc.stopAsyncIteration
          ↔ limit ≤ n)) := by
  by_cases hn : n < limit
  · rw [agf_yield limit n hn, aiterable_yield limit n hn, aiterator_yield limit n hn]
    simp
    omega
  · rw [agf_stop limit n (by omega), aiterable_stop limit n (by omega),
      aiterator_stop limit n (by omega)]
    simp
    omega

/-- C9: for every integer limit, including non-positive ones, a full
drain of each producer variant terminates within finite fuel and yields
exactly `max(limit, 0)` items; for a non-positive limit it yields no
items at all. -/
theorem drains_terminate_finitely (L : Int) :
    ∃ (fuel : Nat) (items : List Int) (f1 f2 f3 : Int),
      drain (async_gen_func_anext L) fuel 0 = some (Except.ok items, f1)
      ∧ drain (AsyncIterable.anext L) fuel 0 = some (Except.ok items, f2)
      ∧ drain (AsyncIterator.anext L) fuel 0 = some (Except.ok items, f3)
      ∧ items.length = L.toNat
      ∧ (L ≤ 0 → items = []) := by
  refine ⟨L.toNat + 1, upList 0 L, max 0 L, max 0 L, max 0 L + 1, ?_, ?_, ?_, ?_, ?_⟩
  · exact drain_spec L _ (fun m => m) (agf_yield L) (agf_stop L) _ 0 (by omega)
  · exact drain_spec L _ (fun m => m) (aiterable_yield L) (aiterable_stop L)
      _ 0 (by omega)
  · exact drain_spec L _ (fun m => m + 1) (aiterator_yield L) (aiterator_stop L)
      _ 0 (by omega)
  · rw [upList_length]
    omega
  · intro h
    exact upList_nil 0 L (by omega)

/-- C10: the stateful producers are single-use: any terminated full
drain from a fresh instance leaves the instance cursor at or past the
limit, and a second iteration started on the same instance yields no
values and terminates on its first step. -/
theorem producers_single_use (limit : Int) (fuel : Nat)
    (items1 items2 : List Int) (f1 f2 : Int)
    (h1 : drain (AsyncIterable.anext limit) fuel 0 = some (Except.ok items1, f1))
    (h2 : drain (AsyncIterator.anext limit) fuel 0 = some (Except.ok items2, f2)) :
    limit ≤ f1 ∧ limit ≤ f2
    ∧ (∀ fuel2 : Nat, 0 < fuel2 →
        drain (AsyncIterable.anext limit) fuel2 f1 = some (Except.ok [], f1))
    ∧ (∀ fuel2 : Nat, 0 < fuel2 →
        drain (AsyncIterator.anext limit) fuel2 f2 = some (Except.ok [], f2 + 1)) := by
  have hu1 := drain_unique limit _ (fun m => m) (aiterable_yield limit)
    (aiterable_stop limit) fuel 0 _ h1
  have hu2 := drain_unique limit _ (fun m => m + 1) (aiterator_yield limit)
    (aiterator_stop limit) fuel 0 _ h2
  injection hu1 with hi1 hf1
  injection hu2 with hi2 hf2
  replace hf1 : f1 = max 0 limit := hf1
  replace hf2 : f2 = max 0 limit + 1 := hf2
  refine ⟨by omega, by omega, ?_, ?_⟩
  · intro fuel2 hfu
    have hs := drain_spec limit _ (fun m => m) (aiterable_yield limit)
      (aiterable_stop limit) fuel2 f1 (by omega)
    rw [hs, upList_nil f1 limit (by omega)]
    have hm : max f1 limit = f1 := by omega
    rw [hm]
  · intro fuel2 hfu
    have hs := drain_spec limit _ (fun m => m + 1) (aiterator_yield limit)
      (aiterator_stop limit) fuel2 f2 (by omega)
    rw [hs, upList_nil f2 limit (by omega)]
    have hm : max f2 limit = f2 := by omega
    rw [hm]

theorem producers_single_use_witness :
    (2 : Int) ≤ 2 ∧ (2 : Int) ≤ 3
    ∧ (∀ fuel2 : Nat, 0 < fuel2 →
        drain (AsyncIterable.anext 2) fuel2 2 = some (Except.ok [], 2))
    ∧ (∀ fuel2 : Nat, 0 < fuel2 →
        drain (AsyncIterator.anext 2) fuel2 3 = some (Except.ok [], 3 + 1)) :=
  producers_single_use 2 3 [1, 2] [1, 2] 2 3 (by rfl) (by rfl)
